import Mathlib

/-!
# Order-book ingestion (`coinbase-golang/main.go`): a shallow embedding

The Go program parses decimal strings into `math/big.Float` values, multiplies
them, formats them with `formatDecimal`, and issues Redis commands (`ZADD`,
`ZREMRANGEBYSCORE`, `HSET`).  The embedding has four layers:

* `BigFloat`: the library type `big.Float` (binary floating point with a
  precision in bits, rounding mode `ToNearestEven`), with the operations the
  program calls: `SetString`, `Mul`, `Set`, `SetPrec`, `Cmp`, `Float64`,
  `NewFloat` and the `%.*f` formatter.  A value is `mant * 2 ^ exp` with an
  integer mantissa; Go's normalised exponent is `bitLen mant + exp`.
* the program's own functions, under their source names: `formatDecimal`,
  `mapSide`, `generateOrderID`, `processSnapshot`, `processL2Update`.
* the store: sorted sets and hashes with the semantics of the three Redis
  commands, together with the list of commands issued so far.
* request signing: `padBase64`, `generateSignature` and `MarketDataApp.sign`
  (`coinbase-fix-go/fix_client.go`), over the library's base64 and
  HMAC-SHA256 functions taken as parameters.

A Go run-time panic (nil dereference, index out of range, `ErrNaN`) is an
explicit outcome: `Option` for pure functions, `Outcome.panic` for the
message handlers.
-/

namespace OrderBook

/-! ## `big.Float` -/

/-- Binary length of a natural number, by halving under a fuel bound. -/
def bitLenAux : Nat → Nat → Nat
  | 0, _ => 0
  | fuel + 1, n => if n = 0 then 0 else bitLenAux fuel (n / 2) + 1

/-- Number of binary digits of `n` (`nat.bitLen`); `bitLen 0 = 0`. -/
def bitLen (n : Nat) : Nat := bitLenAux n n

/-- The three forms of a `big.Float`: `±0`, finite non-zero, `±Inf`. -/
inductive Form where
  | zero
  | finite
  | inf
deriving DecidableEq, Repr

/-- A `big.Float`: precision in bits, sign, form, and for a finite value the
magnitude `mant * 2 ^ exp` (`mant > 0`).  The rounding mode is always the
default `ToNearestEven`, which the program never changes. -/
structure BigFloat where
  prec : Nat
  neg : Bool
  form : Form
  mant : Nat
  exp : Int
deriving DecidableEq, Repr

/-- Largest exponent of a `big.Float` (`math.MaxInt32`). -/
def MaxExp : Int := 2147483647

/-- Smallest exponent of a `big.Float` (`math.MinInt32`). -/
def MinExp : Int := -2147483648

/-- Largest precision of a `big.Float` (`math.MaxUint32`). -/
def MaxPrec : Nat := 4294967295

namespace BigFloat

/-- The zero value `new(big.Float)`: `+0` with precision 0. -/
def new : BigFloat := ⟨0, false, Form.zero, 0, 0⟩

/-- Signed zero of a given precision. -/
def mkZero (prec : Nat) (neg : Bool) : BigFloat := ⟨prec, neg, Form.zero, 0, 0⟩

/-- Signed infinity of a given precision. -/
def mkInf (prec : Nat) (neg : Bool) : BigFloat := ⟨prec, neg, Form.inf, 0, 0⟩

/-- Go's exponent field: the value is `0.mant * 2 ^ goExp`. -/
def goExp (x : BigFloat) : Int := (bitLen x.mant : Int) + x.exp

/-- Strip trailing zero bits of a mantissa, raising the exponent: the value
`m * 2 ^ e` is unchanged. -/
def stripAux : Nat → Nat → Int → Nat × Int
  | 0, m, e => (m, e)
  | fuel + 1, m, e => if m % 2 = 0 ∧ m ≠ 0 then stripAux fuel (m / 2) (e + 1) else (m, e)

/-- The finite value `m * 2 ^ e`, held with an odd mantissa so that equal
values of one precision and sign are equal records. -/
def mkFinite (prec : Nat) (neg : Bool) (m : Nat) (e : Int) : BigFloat :=
  ⟨prec, neg, Form.finite, (stripAux m m e).1, (stripAux m m e).2⟩

/-- The rounding step `Float.round(sbit)` for mode `ToNearestEven`: keep the
top `prec` bits of the mantissa `m` of magnitude `m * 2 ^ e`; the rounding
bit is the first dropped bit, the sticky bit is `sbit` or any later dropped
bit; the mantissa is incremented when the rounding bit is set and either the
sticky bit or the kept least-significant bit is set.  A mantissa overflow at
the largest exponent gives infinity. -/
def round (prec : Nat) (neg : Bool) (m : Nat) (e : Int) (sbit : Bool) : BigFloat :=
  let len := bitLen m
  if len ≤ prec then mkFinite prec neg m e
  else
    let s := len - prec
    let q := m / 2 ^ s
    let rbit := (m / 2 ^ (s - 1)) % 2 == 1
    let sticky := sbit || (m % 2 ^ (s - 1) != 0)
    let inc := rbit && (sticky || q % 2 == 1)
    if inc then
      if q + 1 = 2 ^ prec ∧ MaxExp ≤ (len : Int) + e then mkInf prec neg
      else mkFinite prec neg (q + 1) (e + s)
    else mkFinite prec neg q (e + s)

/-- The step `Float.setExpAndRound`: underflow to zero below `MinExp`,
overflow to infinity above `MaxExp`, otherwise round. -/
def setExpAndRound (prec : Nat) (neg : Bool) (m : Nat) (e : Int) (sbit : Bool) : BigFloat :=
  let ge := (bitLen m : Int) + e
  if ge < MinExp then mkZero prec neg
  else if MaxExp < ge then mkInf prec neg
  else round prec neg m e sbit

/-- The call `z.Mul(x, y)` for a receiver `z` of precision `zprec`: the
result has `z`'s precision, or the larger operand precision when `z`'s is 0.
`none` is the panic `ErrNaN` on `0 * Inf`. -/
def Mul (zprec : Nat) (x y : BigFloat) : Option BigFloat :=
  let prec := if zprec = 0 then max x.prec y.prec else zprec
  let neg := x.neg != y.neg
  if x.form = Form.finite ∧ y.form = Form.finite then
    some (setExpAndRound prec neg (x.mant * y.mant) (x.exp + y.exp) false)
  else if (x.form = Form.zero ∧ y.form = Form.inf) ∨ (x.form = Form.inf ∧ y.form = Form.zero) then
    none
  else if x.form = Form.inf ∨ y.form = Form.inf then some (mkInf prec neg)
  else some (mkZero prec neg)

/-- The call `z.Quo(x, y)` for a receiver of precision `zprec`: the quotient
of the mantissas is computed with at least `prec + 2` bits and a sticky bit
for a non-zero remainder, then rounded (`uquo`).  `none` is the panic
`ErrNaN` on `0 / 0` and `Inf / Inf`. -/
def Quo (zprec : Nat) (x y : BigFloat) : Option BigFloat :=
  let prec := if zprec = 0 then max x.prec y.prec else zprec
  let neg := x.neg != y.neg
  if x.form = Form.finite ∧ y.form = Form.finite then
    let k := prec + 2 + bitLen y.mant
    let num := x.mant * 2 ^ k
    some (setExpAndRound prec neg (num / y.mant) (x.exp - y.exp - k) (num % y.mant != 0))
  else if (x.form = Form.zero ∧ y.form = Form.zero) ∨ (x.form = Form.inf ∧ y.form = Form.inf) then
    none
  else if x.form = Form.zero ∨ y.form = Form.inf then some (mkZero prec neg)
  else some (mkInf prec neg)

/-- The call `z.SetPrec(prec)`: precision 0 truncates a finite value to zero;
a smaller precision rounds. -/
def SetPrec (z : BigFloat) (prec : Nat) : BigFloat :=
  if prec = 0 then
    if z.form = Form.finite then mkZero 0 z.neg else { z with prec := 0 }
  else
    let p := min prec MaxPrec
    if p < z.prec ∧ z.form = Form.finite then round p z.neg z.mant z.exp false
    else { z with prec := p }

/-- The call `z.Set(x)`: `z` takes `x`'s value, keeps its own precision
unless that is 0, and rounds when its precision is smaller than `x`'s. -/
def Set (z x : BigFloat) : BigFloat :=
  let prec := if z.prec = 0 then x.prec else z.prec
  if prec < x.prec ∧ x.form = Form.finite then round prec x.neg x.mant x.exp false
  else { x with prec := prec }

/-- Unsigned integers as floats (`SetUint64` on a receiver of precision
`zprec`, for an argument that fits the precision). -/
def ofNat (zprec : Nat) (n : Nat) : BigFloat :=
  let prec := if zprec = 0 then 64 else zprec
  if n = 0 then mkZero prec false else round prec false n 0 false

/-- The order class `Float.ord`: -2 for `-Inf`, -1 negative, 0 zero,
1 positive, 2 for `+Inf`. -/
def ord (x : BigFloat) : Int :=
  let m : Int := match x.form with
    | Form.finite => 1
    | Form.zero => 0
    | Form.inf => 2
  if x.neg then -m else m

/-- Comparison of magnitudes of two finite values (`Float.ucmp`): exponents
first, then the mantissas aligned at their most significant bit. -/
def ucmp (x y : BigFloat) : Int :=
  if x.goExp < y.goExp then -1
  else if y.goExp < x.goExp then 1
  else
    let l := max (bitLen x.mant) (bitLen y.mant)
    let xm := x.mant * 2 ^ (l - bitLen x.mant)
    let ym := y.mant * 2 ^ (l - bitLen y.mant)
    if xm < ym then -1 else if ym < xm then 1 else 0

/-- The call `x.Cmp(y)`: -1, 0 or +1. -/
def Cmp (x y : BigFloat) : Int :=
  let mx := x.ord
  let my := y.ord
  if mx < my then -1
  else if my < mx then 1
  else if mx = -1 then ucmp y x
  else if mx = 1 then ucmp x y
  else 0

/-- The call `x.Float64()` (first result): the nearest `float64`, held as a
`BigFloat` of precision at most 53 with the same value; denormals lose
precision, values beyond the `float64` range become zero or infinity. -/
def Float64 (x : BigFloat) : BigFloat :=
  match x.form with
  | Form.zero => mkZero 53 x.neg
  | Form.inf => mkInf 53 x.neg
  | Form.finite =>
    let e := x.goExp - 1
    let p : Int := if e < -1022 then 53 + 1022 + e else 53
    if p < 0 ∨ (p = 0 ∧ x.mant = 2 ^ (bitLen x.mant - 1)) then mkZero 53 x.neg
    else if p = 0 then mkFinite 53 x.neg 1 (-1074)
    else
      let r := round p.toNat x.neg x.mant x.exp false
      if r.form = Form.inf ∨ 1023 < r.goExp - 1 then mkInf 53 x.neg
      else { r with prec := 53 }

/-! ### Parsing (`Float.SetString`, base 0) -/

/-- The table `pow5tab` holds `5 ^ 0 .. 5 ^ 27`, the powers of five that fit
64 bits. -/
def pow5tabMax : Nat := 27

/-- The loop of `Float.pow5` beyond the table: square-and-multiply on the
bits of `n`, the accumulator `z` at 128 bits of precision and the running
square `f` at 192 bits.  The fuel bounds the number of bits of a `uint64`. -/
def pow5Loop : Nat → Nat → BigFloat → BigFloat → Option BigFloat
  | 0, _, z, _ => some z
  | fuel + 1, n, z, f =>
    if n = 0 then some z
    else
      match (if n % 2 = 1 then Mul z.prec z f else some z), Mul f.prec f f with
      | some z1, some f1 => pow5Loop fuel (n / 2) z1 f1
      | _, _ => none

/-- The call `p.pow5(n)` on a receiver of precision `zprec`: `5 ^ n`, exact
from the table for `n ≤ 27`, by rounded multiplications beyond. -/
def pow5 (zprec : Nat) (n : Nat) : Option BigFloat :=
  if n ≤ pow5tabMax then some (ofNat zprec (5 ^ n))
  else pow5Loop 64 (n - pow5tabMax) (ofNat zprec (5 ^ pow5tabMax)) (ofNat (zprec + 64) 5)

/-- Digit value of a character for `nat.scan` (bases up to 16 here):
`0-9`, then letters from 10; anything else is larger than every base. -/
def digitVal (ch : Char) : Nat :=
  if '0' ≤ ch ∧ ch ≤ '9' then ch.toNat - '0'.toNat
  else if 'a' ≤ ch ∧ ch ≤ 'z' then ch.toNat - 'a'.toNat + 10
  else if 'A' ≤ ch ∧ ch ≤ 'Z' then ch.toNat - 'A'.toNat + 10
  else 63

/-- Result of scanning a mantissa: its digits as a number, the base, the
digit count (`count`) and the position of the radix point (`dp`), the
separator state, and the unread rest of the input. -/
structure MantScan where
  mant : Nat
  base : Nat
  count : Nat
  dp : Option Nat
  prev : Char
  invalSep : Bool
  rest : List Char

/-- The digit loop of `nat.scan` with `base == 0`: a radix point is accepted
once, `_` is a separator that must follow a digit, a character that is no
digit of base `b` ends the number and stays unread. -/
def scanDigits (b : Nat) : List Char → Bool → Char → Bool → Nat → Option Nat → Nat → MantScan
  | [], _, prev, invalSep, count, dp, acc => ⟨acc, b, count, dp, prev, invalSep, []⟩
  | ch :: rest, fracOk, prev, invalSep, count, dp, acc =>
    if ch = '.' ∧ fracOk = true then
      scanDigits b rest false '.' (invalSep || prev == '_') count (some count) acc
    else if ch = '_' then
      scanDigits b rest fracOk '_' (invalSep || prev != '0') count dp acc
    else if b ≤ digitVal ch then ⟨acc, b, count, dp, prev, invalSep, ch :: rest⟩
    else scanDigits b rest fracOk '0' invalSep (count + 1) dp (acc * b + digitVal ch)

/-- The call `nat.scan(r, 0, true)`: an optional base prefix `0b`, `0o`,
`0x` (either case), then the digit loop.  `none` is an error: a misplaced
separator or no digits. -/
def scanMantissa (cs : List Char) : Option MantScan :=
  let r : MantScan :=
    match cs with
    | '0' :: ch :: rest =>
      if ch = 'b' ∨ ch = 'B' then scanDigits 2 rest true '0' false 0 none 0
      else if ch = 'o' ∨ ch = 'O' then scanDigits 8 rest true '0' false 0 none 0
      else if ch = 'x' ∨ ch = 'X' then scanDigits 16 rest true '0' false 0 none 0
      else scanDigits 10 (ch :: rest) true '0' false 1 none 0
    | ['0'] => ⟨0, 10, 1, none, '0', false, []⟩
    | _ => scanDigits 10 cs true '.' false 0 none 0
  if r.invalSep = true ∨ r.prev = '_' ∨ r.count = 0 then none else some r

/-- The digit loop of `scanExponent` with separators allowed: collects the
decimal digits and stops at the first other character. -/
def scanExpDigits : List Char → Char → Bool → Bool → Nat → Nat × Char × Bool × Bool × List Char
  | [], prev, invalSep, hasDigits, acc => (acc, prev, invalSep, hasDigits, [])
  | ch :: rest, prev, invalSep, hasDigits, acc =>
    if '0' ≤ ch ∧ ch ≤ '9' then
      scanExpDigits rest '0' invalSep true (acc * 10 + (ch.toNat - '0'.toNat))
    else if ch = '_' then scanExpDigits rest '_' (invalSep || prev != '0') hasDigits acc
    else (acc, prev, invalSep, hasDigits, ch :: rest)

/-- The call `scanExponent(r, true, true)`: an optional exponent, `e`/`E`
for base 10 and `p`/`P` for base 2, with optional sign; the value must fit
an `int64` (`strconv.ParseInt`).  Returns the exponent, its base and the
unread rest; `none` is an error. -/
def scanExponent (cs : List Char) : Option (Int × Nat × List Char) :=
  match cs with
  | [] => some (0, 10, [])
  | ch :: rest =>
    let ebase : Nat := if ch = 'e' ∨ ch = 'E' then 10 else if ch = 'p' ∨ ch = 'P' then 2 else 0
    if ebase = 0 then some (0, 10, ch :: rest)
    else
      let (eneg, rest1) : Bool × List Char :=
        match rest with
        | '-' :: r => (true, r)
        | '+' :: r => (false, r)
        | r => (false, r)
      let (acc, prev, invalSep, hasDigits, rest2) := scanExpDigits rest1 '.' false false 0
      let v : Int := if eneg then -(acc : Int) else (acc : Int)
      if hasDigits = false then none
      else if v < -9223372036854775808 ∨ 9223372036854775807 < v then none
      else if invalSep = true ∨ prev = '_' then none
      else some (v, ebase, rest2)

/-- The call `z.scan(r, 0)` on a fresh receiver (precision 64): sign,
mantissa, exponent; the radix point and the exponent are split into a power
of two, applied to the exponent, and a power of five, applied by one rounded
multiplication or division.  Returns the value and the unread rest. -/
def scan (cs : List Char) : Option (BigFloat × List Char) :=
  match cs with
  | [] => none
  | c :: tl =>
    let neg := c == '-'
    let body := if c = '-' ∨ c = '+' then tl else c :: tl
    match scanMantissa body with
    | none => none
    | some m =>
      match scanExponent m.rest with
      | none => none
      | some (e, ebase, rest) =>
        if m.mant = 0 then some (mkZero 64 neg, rest)
        else
          let d : Int := match m.dp with
            | some dp => (dp : Int) - (m.count : Int)
            | none => 0
          let exp5a : Int := if m.base = 10 then d else 0
          let exp2a : Int :=
            if m.base = 10 ∨ m.base = 2 then d else if m.base = 8 then d * 3 else d * 4
          let exp5 : Int := if ebase = 10 then exp5a + e else exp5a
          let exp2 : Int := exp2a + e
          let ge : Int := (bitLen m.mant : Int) + exp2
          if ge < MinExp ∨ MaxExp < ge then none
          else if exp5 = 0 then some (round 64 neg m.mant exp2 false, rest)
          else
            let z : BigFloat := ⟨64, neg, Form.finite, m.mant, exp2⟩
            match pow5 128 exp5.natAbs with
            | none => none
            | some p =>
              match (if exp5 < 0 then Quo 64 z p else Mul 64 z p) with
              | none => none
              | some v => some (v, rest)

/-- The call `z.Parse(s, 0)` on a fresh receiver: the four spellings of
infinity, otherwise `scan`, and the whole string must be consumed. -/
def Parse (s : String) : Option BigFloat :=
  if s = "Inf" ∨ s = "inf" ∨ s = "+Inf" ∨ s = "+inf" then some (mkInf 0 false)
  else if s = "-Inf" ∨ s = "-inf" then some (mkInf 0 true)
  else
    match scan s.data with
    | some (v, []) => some v
    | _ => none

/-- The call `new(big.Float).SetString(s)`: the parsed value, or `none`
for the nil pointer that Go returns (with `false`) on a malformed string. -/
def SetString (s : String) : Option BigFloat := Parse s

/-- The call `big.NewFloat(x)` for a `float64` given by its exact value
`mant * 2 ^ exp`: precision 53. -/
def NewFloat (neg : Bool) (mant : Nat) (exp : Int) : BigFloat :=
  if mant = 0 then mkZero 53 neg else mkFinite 53 neg mant exp

/-! ### Formatting (`%.*f`) -/

/-- Decimal digits of `n`, least significant first, under a fuel bound. -/
def digitsRev : Nat → Nat → List Char
  | 0, _ => []
  | fuel + 1, n =>
    Char.ofNat ('0'.toNat + n % 10) :: (if n / 10 = 0 then [] else digitsRev fuel (n / 10))

/-- Decimal numeral of `n` (`"0"` for zero). -/
def natDigits (n : Nat) : List Char := (digitsRev (n + 1) n).reverse

/-- The last `k` decimal digits of `n`, most significant first, zero padded. -/
def fracDigits : Nat → Nat → List Char
  | 0, _ => []
  | k + 1, n => fracDigits k (n / 10) ++ [Char.ofNat ('0'.toNat + n % 10)]

/-- The magnitude of a finite value times `10 ^ prec`, rounded to an integer
half-to-even: the digits that `decimal.round` keeps for format `f`. -/
def scaledRound (mant : Nat) (exp : Int) (prec : Nat) : Nat :=
  if 0 ≤ exp then mant * 2 ^ exp.toNat * 10 ^ prec
  else
    let num := mant * 10 ^ prec
    let den := 2 ^ (-exp).toNat
    let q := num / den
    let r := num % den
    if den < 2 * r ∨ (2 * r = den ∧ q % 2 = 1) then q + 1 else q

/-- The text `fmt.Sprintf("%.*f", prec, x)` for a `*big.Float`
(`Float.Format` with verb `f`): sign, integer digits, and when `prec > 0` a
point and exactly `prec` fraction digits; infinities are `+Inf` and `-Inf`.
The digits are those of the exact value rounded half-to-even at the last
fraction digit.  (Beyond a precision of one million `fmt` rejects the
precision argument; the program only passes 20.) -/
def Sprintf (prec : Nat) (x : BigFloat) : List Char :=
  match x.form with
  | Form.inf => if x.neg then "-Inf".data else "+Inf".data
  | _ =>
    let n := if x.form = Form.finite then scaledRound x.mant x.exp prec else 0
    (if x.neg then ['-'] else []) ++ natDigits (n / 10 ^ prec) ++
      (if prec = 0 then [] else '.' :: fracDigits prec (n % 10 ^ prec))

end BigFloat

/-! ## The program: constants and pure helpers -/

/-- The constant `SMALLEST_UNIT`. -/
def SMALLEST_UNIT : String := "0.0000001"

/-- The value `big.NewFloat(PHPUSD_RATE)`: the `float64` nearest to the
constant `58.001`, which is `8162915062097379 * 2 ^ (-47)`. -/
def PHPUSD_RATE : BigFloat := BigFloat.NewFloat false 8162915062097379 (-47)

/-- The function `formatDecimal(value, decimalPlaces)`: copy the value into
a float whose precision in bits is `decimalPlaces`, print it with
`decimalPlaces` fraction digits, drop the last byte if it is `0`, then drop
the last byte if it is `.`.  Each of the two tests indexes the last byte, so
an empty string is the panic `index out of range` (`none`). -/
def formatDecimal (value : BigFloat) (decimalPlaces : Nat) : Option String :=
  let roundedValue := (BigFloat.new.SetPrec decimalPlaces).Set value
  let s0 := BigFloat.Sprintf decimalPlaces roundedValue
  match s0.getLast? with
  | none => none
  | some c0 =>
    let s1 := if c0 = '0' then s0.dropLast else s0
    match s1.getLast? with
    | none => none
    | some c1 => some (String.mk (if c1 = '.' then s1.dropLast else s1))

/-- The function `mapSide`: lookup in the map with the two keys `BID` and
`ASK`; a missing key gives Go's zero value, the empty string. -/
def mapSide (side : String) : String :=
  if side = "BID" then "buy" else if side = "ASK" then "sell" else ""

/-- The function `generateOrderID`, for the UUID that `uuid.New()` drew. -/
def generateOrderID (uuid : String) : String := "order:" ++ uuid

/-- The key `fmt.Sprintf("%s_%s", productID, side)` of a sorted set. -/
def sortedSetKey (productID side : String) : String := productID ++ "_" ++ side

/-! ## The store -/

/-- A member of a sorted set with its score.  A `float64` score is held as
the `BigFloat` of the same value that `Float64` returns. -/
structure ZEntry where
  score : BigFloat
  member : String
deriving DecidableEq, Repr

/-- The Redis commands the program issues. -/
inductive StoreOp where
  | zadd (key : String) (score : BigFloat) (member : String)
  | zremrangebyscore (key : String) (min max : BigFloat)
  | hset (key : String) (fields : List (String × String))
deriving DecidableEq, Repr

/-- The world the handlers act on: the sorted sets and hashes of the store
by key, the commands issued so far (oldest first), and the number of UUIDs
drawn so far. -/
structure World where
  zsets : String → List ZEntry
  hashes : String → List (String × String)
  issued : List StoreOp
  drawn : Nat

/-- The empty store, nothing issued, no UUID drawn. -/
def World.empty : World := ⟨fun _ => [], fun _ => [], [], 0⟩

/-- Comparison of scores as Redis compares doubles: by value. -/
def scoreLe (a b : BigFloat) : Bool := decide (BigFloat.Cmp a b ≤ 0)

/-- Whether a score lies in the closed range `[min, max]`. -/
def inRange (min max score : BigFloat) : Bool := scoreLe min score && scoreLe score max

/-- The command `ZADD key score member`: the member gets that score,
replacing the member's earlier entry if there is one. -/
def ZAdd (w : World) (key : String) (score : BigFloat) (member : String) : World :=
  { w with
    zsets := fun k =>
      if k = key then (w.zsets k).filter (fun e => e.member != member) ++ [⟨score, member⟩]
      else w.zsets k
    issued := w.issued ++ [StoreOp.zadd key score member] }

/-- The command `ZREMRANGEBYSCORE key min max`: every member whose score
lies in `[min, max]` is removed. -/
def ZRemRangeByScore (w : World) (key : String) (min max : BigFloat) : World :=
  { w with
    zsets := fun k =>
      if k = key then (w.zsets k).filter (fun e => !inRange min max e.score) else w.zsets k
    issued := w.issued ++ [StoreOp.zremrangebyscore key min max] }

/-- Set one field of a hash. -/
def hsetField (h : List (String × String)) (kv : String × String) : List (String × String) :=
  h.filter (fun f => f.1 != kv.1) ++ [kv]

/-- The command `HSET key field value [field value ...]`. -/
def HSet (w : World) (key : String) (fields : List (String × String)) : World :=
  { w with
    hashes := fun k => if k = key then fields.foldl hsetField (w.hashes k) else w.hashes k
    issued := w.issued ++ [StoreOp.hset key fields] }

/-! ## The message handlers -/

/-- A decoded JSON value as far as the handlers distinguish: a string, or
anything else. -/
inductive JVal where
  | str (s : String)
  | other
deriving DecidableEq, Repr

/-- A `snapshot` message: `product_id`, `asks`, `bids`; each entry is a JSON
array. -/
structure SnapshotMsg where
  product_id : String
  asks : List (List JVal)
  bids : List (List JVal)

/-- An `l2update` message: `product_id` and `changes`; each change is a JSON
array. -/
structure L2UpdateMsg where
  product_id : String
  changes : List (List JVal)

/-- How a handler (or one iteration of its loop) ends: normally, or by a
panic, which ends the process; either way with the world reached. -/
inductive Outcome where
  | ok (w : World)
  | panic (w : World)

/-- The world an outcome carries. -/
def Outcome.world : Outcome → World
  | Outcome.ok w => w
  | Outcome.panic w => w

/-- Whether an outcome is a panic. -/
def Outcome.panicked : Outcome → Bool
  | Outcome.ok _ => false
  | Outcome.panic _ => true

/-- A `for ... range` loop over `xs` whose body may panic. -/
def forEach {α : Type} (body : World → α → Outcome) : List α → World → Outcome
  | [], w => Outcome.ok w
  | x :: xs, w =>
    match body w x with
    | Outcome.ok w1 => forEach body xs w1
    | Outcome.panic w1 => Outcome.panic w1

/-- The map `orderData` that `processSnapshot` builds for one entry, from
the two parse results (`none` is the nil pointer of a failed `SetString`).
`none` is a panic: a nil dereference in `Mul`, `0 * Inf`, or one inside
`formatDecimal`. -/
def snapshotOrderData (productID side : String) (price quantity : Option BigFloat) :
    Option (List (String × String)) := do
  let priceUSDBig ← price
  let quantityBig ← quantity
  let totalPriceUSD ← BigFloat.Mul 0 priceUSDBig quantityBig
  let pricePHP ← BigFloat.Mul 0 priceUSDBig PHPUSD_RATE
  let totalPricePHP ← BigFloat.Mul 0 totalPriceUSD PHPUSD_RATE
  let f1 ← formatDecimal priceUSDBig 20
  let f2 ← formatDecimal quantityBig 20
  let f3 ← formatDecimal totalPriceUSD 20
  let f4 ← formatDecimal pricePHP 20
  let f5 ← formatDecimal totalPricePHP 20
  pure [("pair", productID), ("side", mapSide side), ("smallest_unit", SMALLEST_UNIT),
    ("price_per_base_asset_USD", f1), ("quantity", f2), ("total_price_USD", f3),
    ("price_per_base_asset_PHP", f4), ("total_price_PHP", f5)]

/-- The body of the inner loop of `processSnapshot` for one entry of `side`:
an entry whose price or quantity is not a JSON string is skipped; otherwise
the record is computed, `ZADD` indexes a new order id under the price's
`float64` and `HSET` stores the record.  `uuid n` is the `n`-th UUID drawn.
The source writes `Score: priceUSDBig.Float64()`; the score is the first
result of that call, the `float64`. -/
def snapshotEntry (uuid : Nat → String) (productID side : String) (w : World)
    (orderEntry : List JVal) : Outcome :=
  match orderEntry.get? 0 with
  | none => Outcome.panic w
  | some JVal.other => Outcome.ok w
  | some (JVal.str priceUSD) =>
    match orderEntry.get? 1 with
    | none => Outcome.panic w
    | some JVal.other => Outcome.ok w
    | some (JVal.str quantity) =>
      match BigFloat.SetString priceUSD,
          snapshotOrderData productID side (BigFloat.SetString priceUSD)
            (BigFloat.SetString quantity) with
      | some priceUSDBig, some orderData =>
        let orderID := generateOrderID (uuid w.drawn)
        let w1 := { w with drawn := w.drawn + 1 }
        let w2 := ZAdd w1 (sortedSetKey productID (mapSide side)) priceUSDBig.Float64 orderID
        Outcome.ok (HSet w2 orderID orderData)
      | _, _ => Outcome.panic w

/-- The function `processSnapshot`: the entries under `asks`, then those
under `bids`.  The JSON dump printed at the end is not part of the world. -/
def processSnapshot (uuid : Nat → String) (message : SnapshotMsg) (w : World) : Outcome :=
  match forEach (snapshotEntry uuid message.product_id "asks") message.asks w with
  | Outcome.panic w1 => Outcome.panic w1
  | Outcome.ok w1 => forEach (snapshotEntry uuid message.product_id "bids") message.bids w1

/-- The map `orderData` that `processL2Update` builds for one change with a
positive quantity.  The third field is computed by
`new(big.Float).Mul(price, quantity).Mul(rate, rate)`: the second `Mul`
overwrites the receiver with `rate * rate`. -/
def l2OrderData (priceBig newQuantityBig : BigFloat) : Option (List (String × String)) := do
  let f1 ← formatDecimal newQuantityBig 20
  let t ← BigFloat.Mul 0 priceBig newQuantityBig
  let f2 ← formatDecimal t 20
  let z ← BigFloat.Mul 0 priceBig newQuantityBig
  let t2 ← BigFloat.Mul z.prec PHPUSD_RATE PHPUSD_RATE
  let f3 ← formatDecimal t2 20
  pure [("quantity", f1), ("total_price_USD", f2), ("total_price_PHP", f3)]

/-- The body of the loop of `processL2Update` for one change: the three
elements must be strings (else the type assertion panics); the entries at
the price are removed from the sorted set of the mapped side; a quantity
`<= 0` ends the iteration; otherwise a record with a new order id is stored
with `HSET`.  The source passes `priceBig.Float64()` as both bounds of
`ZRemRangeByScore`; the bounds are the first result, the `float64`.  A nil
`priceBig` panics in `Float64` before the command, a nil `newQuantityBig`
in `Cmp` after it. -/
def l2Change (uuid : Nat → String) (productID : String) (w : World)
    (changeData : List JVal) : Outcome :=
  match changeData.get? 0, changeData.get? 1, changeData.get? 2 with
  | some (JVal.str side), some (JVal.str priceStr), some (JVal.str newQuantityStr) =>
    match BigFloat.SetString priceStr with
    | none => Outcome.panic w
    | some priceBig =>
      let w1 := ZRemRangeByScore w (sortedSetKey productID (mapSide side))
        priceBig.Float64 priceBig.Float64
      match BigFloat.SetString newQuantityStr with
      | none => Outcome.panic w1
      | some newQuantityBig =>
        if BigFloat.Cmp newQuantityBig (BigFloat.NewFloat false 0 0) ≤ 0 then Outcome.ok w1
        else
          let orderID := generateOrderID (uuid w1.drawn)
          let w2 := { w1 with drawn := w1.drawn + 1 }
          match l2OrderData priceBig newQuantityBig with
          | none => Outcome.panic w2
          | some orderData => Outcome.ok (HSet w2 orderID orderData)
  | _, _, _ => Outcome.panic w

/-- The function `processL2Update`: the changes in order.  The JSON dump
printed at the end is not part of the world. -/
def processL2Update (uuid : Nat → String) (message : L2UpdateMsg) (w : World) : Outcome :=
  forEach (l2Change uuid message.product_id) message.changes w

/-! ## Request signing (`padBase64`, `generateSignature`, `MarketDataApp.sign`) -/

/-- The constant `SIGNATURE_PATH`. -/
def SIGNATURE_PATH : String := "/users/self/verify"

/-- Byte slices (`[]byte`). -/
abbrev Bytes := List UInt8

/-- The library functions the signing code calls, taken as given:
`base64.StdEncoding.DecodeString` (`none` when it returns an error),
`base64.StdEncoding.EncodeToString`, and the MAC computed by
`hmac.New(sha256.New, key)`, `Write([]byte(message))`, `Sum(nil)`, as a
function of the key and of the message string. -/
structure Primitives where
  DecodeString : String → Option Bytes
  EncodeToString : Bytes → String
  hmacSha256 : Bytes → String → Bytes

/-- The function `padBase64`: `s + strings.Repeat("=", (-len(s) % 4))`.
Go's `%` truncates toward zero, so the count is `-(len(s) % 4)`, and
`strings.Repeat` panics on a negative count (`none`). -/
def padBase64 (s : String) : Option String :=
  let count : Int := Int.tmod (-(s.utf8ByteSize : Int)) 4
  if count < 0 then none else some (s ++ String.mk (List.replicate count.toNat '='))

/-- The text `fmt.Sprintf("%v", n)` of an `int64`. -/
def unixText (n : Int) : String :=
  String.mk ((if n < 0 then ['-'] else []) ++ BigFloat.natDigits n.natAbs)

/-- How `generateSignature` ends: with a signature and the timestamp, with a
non-nil error (the secret does not decode), or by a panic. -/
inductive SigOutcome where
  | ok (signature timestamp : String)
  | error
  | panic
deriving DecidableEq, Repr

/-- The function `generateSignature(secretKey)`, run when `time.Now().Unix()`
is `now`: the message is the timestamp, `GET` and the signature path; the
secret is padded, decoded, and used as the key of the MAC of the message,
whose base64 text is returned with the timestamp. -/
def generateSignature (c : Primitives) (now : Int) (secretKey : String) : SigOutcome :=
  let timestamp := unixText now
  let message := timestamp ++ "GET" ++ SIGNATURE_PATH
  match padBase64 secretKey with
  | none => SigOutcome.panic
  | some padded =>
    match c.DecodeString padded with
    | none => SigOutcome.error
    | some decodedSecretKey =>
      SigOutcome.ok (c.EncodeToString (c.hmacSha256 decodedSecretKey message)) timestamp

/-- The byte `0x01` (SOH) as a string. -/
def SOH : String := String.singleton (Char.ofNat 1)

/-- The method `MarketDataApp.sign` for an application whose `apiSecret` is
given: the six arguments are printed with SOH between them, the secret is
decoded (the empty string is returned when that fails), and the base64 text
of the MAC of the message under the decoded key is returned. -/
def sign (c : Primitives) (apiSecret : String)
    (sendingTime msgType seqNum senderComp targetComp password : String) : String :=
  let messageData := sendingTime ++ SOH ++ msgType ++ SOH ++ seqNum ++ SOH ++ senderComp ++
    SOH ++ targetComp ++ SOH ++ password
  match c.DecodeString apiSecret with
  | none => ""
  | some secretBytes => c.EncodeToString (c.hmacSha256 secretBytes messageData)

/-- The primitive as the specification words it,
`base64(HMAC-SHA256(base64_decode(secret), message))`, defined when the
secret decodes. -/
def specPrimitive (c : Primitives) (secret message : String) : Option String :=
  (c.DecodeString secret).map fun key => c.EncodeToString (c.hmacSha256 key message)

/-- The session-logon message as the specification words it: the six fields
joined by SOH. -/
def specLogonMessage (sendingTime msgType seqNum senderComp targetComp password : String) :
    String :=
  String.intercalate SOH [sendingTime, msgType, seqNum, senderComp, targetComp, password]

/-- The subscription message as the specification words it:
`"{unixTimestamp}GET{signaturePath}"`. -/
def specSubscribeMessage (timestamp signaturePath : String) : String :=
  timestamp ++ "GET" ++ signaturePath

/-! ## Reading decimal text -/

/-- Digits of a decimal numeral as a number; `none` on a character that is
not a decimal digit. -/
def digitsValue : List Char → Nat → Option Nat
  | [], acc => some acc
  | c :: cs, acc =>
    if '0' ≤ c ∧ c ≤ '9' then digitsValue cs (acc * 10 + (c.toNat - '0'.toNat)) else none

/-- The rational number a plain decimal text denotes (optional sign,
digits, optional point and fraction digits), as a pair `(n, k)` standing for
`n / 10 ^ k`. -/
def decimalValue (s : String) : Option (Int × Nat) :=
  let cs := s.data
  let neg := cs.head? == some '-'
  let body := if cs.head? = some '-' ∨ cs.head? = some '+' then cs.tail else cs
  let ip := body.takeWhile (fun c => c != '.')
  let fp := (body.dropWhile (fun c => c != '.')).tail
  if ip = [] then none
  else
    match digitsValue (ip ++ fp) 0 with
    | none => none
    | some n => some (if neg then -(n : Int) else (n : Int), fp.length)

/-- Two pairs `(n, k)` denote the same rational number. -/
def sameNumber (a b : Int × Nat) : Prop := a.1 * 10 ^ b.2 = b.1 * 10 ^ a.2

instance (a b : Int × Nat) : Decidable (sameNumber a b) := by
  unfold sameNumber; infer_instance

/-- A sample UUID source: the `n`-th UUID drawn is `u` followed by `n`. -/
def sampleUUID (n : Nat) : String := String.mk ('u' :: BigFloat.natDigits n)

/-! ## Well-formed snapshot levels and their records -/

/-- A well-formed snapshot level: a pair of strings that both parse, with a
defined product (not `0 * Inf`). -/
def WellFormedLevel (entry : List JVal) : Prop :=
  ∃ priceText quantityText p q t,
    entry = [JVal.str priceText, JVal.str quantityText] ∧
    BigFloat.SetString priceText = some p ∧ BigFloat.SetString quantityText = some q ∧
    BigFloat.Mul 0 p q = some t

/-- The record of a level with price `p`, quantity `q` and product `t` is
among the commands `issued`: for some drawn UUID, a `ZADD` of the order id
under the side's key at the price's `float64`, and an `HSET` of the order id
whose price-primary, quantity, notional-primary, price-secondary and
notional-secondary are `formatDecimal(., 20)` of `p`, `q`, `t`, `p * rate`
and `t * rate`. -/
def LevelRecorded (uuid : Nat → String) (productID side : String) (issued : List StoreOp)
    (p q t : BigFloat) : Prop :=
  ∃ n pricePHP totalPricePHP f1 f2 f3 f4 f5,
    BigFloat.Mul 0 p PHPUSD_RATE = some pricePHP ∧
    BigFloat.Mul 0 t PHPUSD_RATE = some totalPricePHP ∧
    formatDecimal p 20 = some f1 ∧ formatDecimal q 20 = some f2 ∧
    formatDecimal t 20 = some f3 ∧ formatDecimal pricePHP 20 = some f4 ∧
    formatDecimal totalPricePHP 20 = some f5 ∧
    StoreOp.zadd (sortedSetKey productID (mapSide side)) p.Float64
      (generateOrderID (uuid n)) ∈ issued ∧
    StoreOp.hset (generateOrderID (uuid n))
      [("pair", productID), ("side", mapSide side), ("smallest_unit", SMALLEST_UNIT),
        ("price_per_base_asset_USD", f1), ("quantity", f2), ("total_price_USD", f3),
        ("price_per_base_asset_PHP", f4), ("total_price_PHP", f5)] ∈ issued

/-! ## Sample inputs -/

/-- The batch of C1: two changes at the price `100.50` on the bid side, with
quantities 1 and 2. -/
def replaceBatch : L2UpdateMsg :=
  ⟨"BTC-USD", [[JVal.str "BID", JVal.str "100.50", JVal.str "1"],
    [JVal.str "BID", JVal.str "100.50", JVal.str "2"]]⟩

/-- A store whose index `BTC-USD_buy` holds one entry at the price 100.50. -/
def oneBidWorld : World :=
  ZAdd World.empty "BTC-USD_buy" (BigFloat.mkFinite 53 false 201 (-1)) "order:old"

/-- The snapshot of the spec's scenario: bid `100.50 x 2`, ask `101.00 x 1`. -/
def scenarioSnapshot : SnapshotMsg :=
  ⟨"BTC-USD", [[JVal.str "101.00", JVal.str "1"]], [[JVal.str "100.50", JVal.str "2"]]⟩

/-- The scenario snapshot with a malformed price `abc` first among the asks. -/
def malformedSnapshot : SnapshotMsg :=
  ⟨"BTC-USD", [[JVal.str "abc", JVal.str "1"], [JVal.str "101.00", JVal.str "1"]],
    [[JVal.str "100.50", JVal.str "2"]]⟩

/-- A batch whose first change has the malformed quantity `x`. -/
def malformedBatch : L2UpdateMsg :=
  ⟨"BTC-USD", [[JVal.str "BID", JVal.str "100.50", JVal.str "x"],
    [JVal.str "BID", JVal.str "101.00", JVal.str "1"]]⟩

/-- Value of a character of the standard base64 alphabet. -/
def base64Index (ch : Char) : Option Nat :=
  if 'A' ≤ ch ∧ ch ≤ 'Z' then some (ch.toNat - 'A'.toNat)
  else if 'a' ≤ ch ∧ ch ≤ 'z' then some (ch.toNat - 'a'.toNat + 26)
  else if '0' ≤ ch ∧ ch ≤ '9' then some (ch.toNat - '0'.toNat + 52)
  else if ch = '+' then some 62
  else if ch = '/' then some 63
  else none

/-- Decoding of padded base64 text in groups of four characters. -/
def sampleDecode : List Char → Option Bytes
  | [] => some []
  | [a, b, '=', '='] => do
    let x ← base64Index a
    let y ← base64Index b
    pure [UInt8.ofNat ((x * 64 + y) / 16)]
  | [a, b, c, '='] => do
    let x ← base64Index a
    let y ← base64Index b
    let z ← base64Index c
    let n := (x * 64 + y) * 64 + z
    pure [UInt8.ofNat (n / 1024), UInt8.ofNat (n / 4 % 256)]
  | a :: b :: c :: d :: rest => do
    let x ← base64Index a
    let y ← base64Index b
    let z ← base64Index c
    let w ← base64Index d
    let n := ((x * 64 + y) * 64 + z) * 64 + w
    let tl ← sampleDecode rest
    pure (UInt8.ofNat (n / 65536) :: UInt8.ofNat (n / 256 % 256) :: UInt8.ofNat (n % 256) :: tl)
  | _ => none

/-- The character of the standard base64 alphabet with a given value. -/
def base64Char (n : Nat) : Char :=
  if n < 26 then Char.ofNat ('A'.toNat + n)
  else if n < 52 then Char.ofNat ('a'.toNat + (n - 26))
  else if n < 62 then Char.ofNat ('0'.toNat + (n - 52))
  else if n = 62 then '+' else '/'

/-- Encoding of bytes as padded base64 text in groups of three bytes. -/
def sampleEncode : Bytes → List Char
  | [] => []
  | [a] =>
    let n := a.toNat * 16
    [base64Char (n / 64), base64Char (n % 64), '=', '=']
  | [a, b] =>
    let n := (a.toNat * 256 + b.toNat) * 4
    [base64Char (n / 4096), base64Char (n / 64 % 64), base64Char (n % 64), '=']
  | a :: b :: c :: rest =>
    let n := (a.toNat * 256 + b.toNat) * 256 + c.toNat
    base64Char (n / 262144) :: base64Char (n / 4096 % 64) :: base64Char (n / 64 % 64) ::
      base64Char (n % 64) :: sampleEncode rest

/-- An instance of the library functions for closed examples: padded base64
in both directions, and in place of HMAC-SHA256 the key followed by the
bytes of the message (the theorems hold for every MAC function). -/
def samplePrimitives : Primitives where
  DecodeString := fun s => sampleDecode s.data
  EncodeToString := fun b => String.mk (sampleEncode b)
  hmacSha256 := fun key message => key ++ message.data.map fun ch => UInt8.ofNat ch.toNat

/-! ## Auxiliary facts -/

theorem BigFloat.ucmp_self (x : BigFloat) : BigFloat.ucmp x x = 0 := by
  simp [BigFloat.ucmp]

theorem BigFloat.Cmp_self (x : BigFloat) : BigFloat.Cmp x x = 0 := by
  simp [BigFloat.Cmp, BigFloat.ucmp_self]

theorem inRange_self (s : BigFloat) : inRange s s s = true := by
  simp [inRange, scoreLe, BigFloat.Cmp_self]

theorem BigFloat.length_fracDigits (k n : Nat) : (BigFloat.fracDigits k n).length = k := by
  induction k generalizing n with
  | zero => rfl
  | succ k ih => simp [BigFloat.fracDigits, ih]

theorem BigFloat.two_le_length_Sprintf (prec : Nat) (x : BigFloat) (h : 1 ≤ prec) :
    2 ≤ (BigFloat.Sprintf prec x).length := by
  have hp : prec ≠ 0 := by omega
  unfold BigFloat.Sprintf
  cases hf : x.form <;> cases hn : x.neg <;>
    simp [hp, BigFloat.length_fracDigits] <;> omega

/-- The two stripping steps of `formatDecimal` cannot run out of bytes on a
text of at least two bytes. -/
theorem strip_isSome (s0 : List Char) (hlen : 2 ≤ s0.length) :
    ∃ s, (match s0.getLast? with
      | none => none
      | some c0 =>
        match (if c0 = '0' then s0.dropLast else s0).getLast? with
        | none => none
        | some c1 =>
          some (String.mk (if c1 = '.' then (if c0 = '0' then s0.dropLast else s0).dropLast
            else (if c0 = '0' then s0.dropLast else s0)))) = some s := by
  cases h0 : s0.getLast? with
  | none =>
    rw [List.getLast?_eq_none_iff] at h0
    subst h0
    simp at hlen
  | some c0 =>
    have h1 : (if c0 = '0' then s0.dropLast else s0) ≠ [] := by
      split
      · intro hnil
        have := congrArg List.length hnil
        simp at this
        omega
      · intro hnil
        subst hnil
        simp at hlen
    cases h2 : (if c0 = '0' then s0.dropLast else s0).getLast? with
    | none =>
      rw [List.getLast?_eq_none_iff] at h2
      exact absurd h2 h1
    | some c1 =>
      show ∃ s, (match (if c0 = '0' then s0.dropLast else s0).getLast? with
        | none => none
        | some c1 =>
          some (String.mk (if c1 = '.' then (if c0 = '0' then s0.dropLast else s0).dropLast
            else (if c0 = '0' then s0.dropLast else s0)))) = some s
      rw [h2]
      exact ⟨_, rfl⟩

/-- With at least one fraction digit `formatDecimal` returns a string. -/
theorem formatDecimal_isSome (value : BigFloat) (decimalPlaces : Nat) (h : 1 ≤ decimalPlaces) :
    ∃ s, formatDecimal value decimalPlaces = some s :=
  strip_isSome _ (BigFloat.two_le_length_Sprintf decimalPlaces
    ((BigFloat.new.SetPrec decimalPlaces).Set value) h)

/-- The sorted sets after `ZREMRANGEBYSCORE` hold no entry in the range. -/
theorem not_inRange_of_mem_ZRemRangeByScore (w : World) (key : String) (min max : BigFloat)
    (e : ZEntry) (h : e ∈ (ZRemRangeByScore w key min max).zsets key) :
    inRange min max e.score = false := by
  simp [ZRemRangeByScore, List.mem_filter] at h
  exact h.2

/-- Whatever one iteration of `processL2Update` does, an entry of a sorted
set afterwards was an entry of it before: no `ZADD` is issued. -/
theorem l2Change_zsets_mem (uuid : Nat → String) (productID : String) (w : World)
    (changeData : List JVal) (k : String) (e : ZEntry)
    (h : e ∈ (l2Change uuid productID w changeData).world.zsets k) : e ∈ w.zsets k := by
  unfold l2Change at h
  split at h
  · split at h
    · exact h
    · split at h
      · simp only [Outcome.world, ZRemRangeByScore] at h
        split at h
        · exact (List.mem_filter.mp h).1
        · exact h
      · split at h
        · simp only [Outcome.world, ZRemRangeByScore] at h
          split at h
          · exact (List.mem_filter.mp h).1
          · exact h
        · split at h
          · simp only [Outcome.world, ZRemRangeByScore] at h
            split at h
            · exact (List.mem_filter.mp h).1
            · exact h
          · simp only [Outcome.world, ZRemRangeByScore, HSet] at h
            split at h
            · exact (List.mem_filter.mp h).1
            · exact h
  · exact h

set_option maxRecDepth 100000

/-- A product of two finite values never panics. -/
theorem BigFloat.Mul_isSome_of_finite (zprec : Nat) (x y : BigFloat)
    (hx : x.form = Form.finite) (hy : y.form = Form.finite) :
    ∃ t, BigFloat.Mul zprec x y = some t := by
  simp [BigFloat.Mul, hx, hy]

/-- A product with a finite right factor never panics. -/
theorem BigFloat.Mul_isSome_of_finite_right (zprec : Nat) (x y : BigFloat)
    (hy : y.form = Form.finite) : ∃ t, BigFloat.Mul zprec x y = some t := by
  unfold BigFloat.Mul
  cases hx : x.form <;> simp [hy]

theorem PHPUSD_RATE_finite : PHPUSD_RATE.form = Form.finite := by decide

/-- The constant `PHPUSD_RATE` is the `float64` nearest to `58.001`: it has
53 bits and lies within half a unit in the last place, `2 ^ (-48)`. -/
theorem PHPUSD_RATE_nearest :
    PHPUSD_RATE = ⟨53, false, Form.finite, 8162915062097379, -47⟩ ∧
    bitLen 8162915062097379 = 53 ∧
    2 * (58001 * 2 ^ 47 - 8162915062097379 * 1000 : Int).natAbs ≤ 1000 := by
  refine ⟨?_, ?_, ?_⟩ <;> decide

/-- The chain of steps of `l2OrderData` for an arbitrary finite rate. -/
theorem l2OrderData_aux (r p q t : BigFloat) (hr : r.form = Form.finite)
    (ht : BigFloat.Mul 0 p q = some t) :
    ∃ f1 f2 t2 f3, formatDecimal q 20 = some f1 ∧ formatDecimal t 20 = some f2 ∧
      BigFloat.Mul t.prec r r = some t2 ∧ formatDecimal t2 20 = some f3 ∧
      (formatDecimal q 20 >>= fun f1 => BigFloat.Mul 0 p q >>= fun t =>
        formatDecimal t 20 >>= fun f2 => BigFloat.Mul 0 p q >>= fun z =>
        BigFloat.Mul z.prec r r >>= fun t2 => formatDecimal t2 20 >>= fun f3 =>
        pure [("quantity", f1), ("total_price_USD", f2), ("total_price_PHP", f3)]) =
        some [("quantity", f1), ("total_price_USD", f2), ("total_price_PHP", f3)] := by
  obtain ⟨f1, h1⟩ := formatDecimal_isSome q 20 (by decide)
  obtain ⟨f2, h2⟩ := formatDecimal_isSome t 20 (by decide)
  obtain ⟨t2, h3⟩ := BigFloat.Mul_isSome_of_finite t.prec r r hr hr
  obtain ⟨f3, h4⟩ := formatDecimal_isSome t2 20 (by decide)
  refine ⟨f1, f2, t2, f3, h1, h2, h3, h4, ?_⟩
  simp only [ht, h1, Option.bind_eq_bind, Option.some_bind, h2, h3, h4, Option.pure_def]

/-- The record of `processL2Update` exists whenever price times quantity
does; its third field is the formatted square of the rate. -/
theorem l2OrderData_of_Mul (p q t : BigFloat) (ht : BigFloat.Mul 0 p q = some t) :
    ∃ f1 f2 t2 f3, formatDecimal q 20 = some f1 ∧ formatDecimal t 20 = some f2 ∧
      BigFloat.Mul t.prec PHPUSD_RATE PHPUSD_RATE = some t2 ∧ formatDecimal t2 20 = some f3 ∧
      l2OrderData p q =
        some [("quantity", f1), ("total_price_USD", f2), ("total_price_PHP", f3)] :=
  l2OrderData_aux PHPUSD_RATE p q t PHPUSD_RATE_finite ht

/-- The chain of steps of `snapshotOrderData` for an arbitrary finite rate. -/
theorem snapshotOrderData_aux (r : BigFloat) (productID sideName : String) (p q t : BigFloat)
    (hr : r.form = Form.finite) (ht : BigFloat.Mul 0 p q = some t) :
    ∃ pricePHP totalPricePHP f1 f2 f3 f4 f5,
      BigFloat.Mul 0 p r = some pricePHP ∧ BigFloat.Mul 0 t r = some totalPricePHP ∧
      formatDecimal p 20 = some f1 ∧ formatDecimal q 20 = some f2 ∧
      formatDecimal t 20 = some f3 ∧ formatDecimal pricePHP 20 = some f4 ∧
      formatDecimal totalPricePHP 20 = some f5 ∧
      (some p >>= fun priceUSDBig => some q >>= fun quantityBig =>
        BigFloat.Mul 0 priceUSDBig quantityBig >>= fun totalPriceUSD =>
        BigFloat.Mul 0 priceUSDBig r >>= fun pricePHP =>
        BigFloat.Mul 0 totalPriceUSD r >>= fun totalPricePHP =>
        formatDecimal priceUSDBig 20 >>= fun f1 => formatDecimal quantityBig 20 >>= fun f2 =>
        formatDecimal totalPriceUSD 20 >>= fun f3 => formatDecimal pricePHP 20 >>= fun f4 =>
        formatDecimal totalPricePHP 20 >>= fun f5 =>
        pure [("pair", productID), ("side", sideName), ("smallest_unit", SMALLEST_UNIT),
          ("price_per_base_asset_USD", f1), ("quantity", f2), ("total_price_USD", f3),
          ("price_per_base_asset_PHP", f4), ("total_price_PHP", f5)]) =
        some [("pair", productID), ("side", sideName), ("smallest_unit", SMALLEST_UNIT),
          ("price_per_base_asset_USD", f1), ("quantity", f2), ("total_price_USD", f3),
          ("price_per_base_asset_PHP", f4), ("total_price_PHP", f5)] := by
  obtain ⟨pp, hpp⟩ := BigFloat.Mul_isSome_of_finite_right 0 p r hr
  obtain ⟨tp, htp⟩ := BigFloat.Mul_isSome_of_finite_right 0 t r hr
  obtain ⟨f1, h1⟩ := formatDecimal_isSome p 20 (by decide)
  obtain ⟨f2, h2⟩ := formatDecimal_isSome q 20 (by decide)
  obtain ⟨f3, h3⟩ := formatDecimal_isSome t 20 (by decide)
  obtain ⟨f4, h4⟩ := formatDecimal_isSome pp 20 (by decide)
  obtain ⟨f5, h5⟩ := formatDecimal_isSome tp 20 (by decide)
  refine ⟨pp, tp, f1, f2, f3, f4, f5, hpp, htp, h1, h2, h3, h4, h5, ?_⟩
  simp only [ht, hpp, htp, h1, h2, h3, h4, h5, Option.bind_eq_bind, Option.some_bind,
    Option.pure_def]

/-- The record of `processSnapshot` exists whenever price times quantity
does, with the five formatted values. -/
theorem snapshotOrderData_of_Mul (productID side : String) (p q t : BigFloat)
    (ht : BigFloat.Mul 0 p q = some t) :
    ∃ pricePHP totalPricePHP f1 f2 f3 f4 f5,
      BigFloat.Mul 0 p PHPUSD_RATE = some pricePHP ∧
      BigFloat.Mul 0 t PHPUSD_RATE = some totalPricePHP ∧
      formatDecimal p 20 = some f1 ∧ formatDecimal q 20 = some f2 ∧
      formatDecimal t 20 = some f3 ∧ formatDecimal pricePHP 20 = some f4 ∧
      formatDecimal totalPricePHP 20 = some f5 ∧
      snapshotOrderData productID side (some p) (some q) =
        some [("pair", productID), ("side", mapSide side), ("smallest_unit", SMALLEST_UNIT),
          ("price_per_base_asset_USD", f1), ("quantity", f2), ("total_price_USD", f3),
          ("price_per_base_asset_PHP", f4), ("total_price_PHP", f5)] :=
  snapshotOrderData_aux PHPUSD_RATE productID (mapSide side) p q t PHPUSD_RATE_finite ht

/-- Go's truncated remainder of a negated length: `-n % 4 = -(n % 4)`. -/
theorem tmod_neg_four (n : Nat) : Int.tmod (-(n : Int)) 4 = -((n % 4 : Nat) : Int) := by
  cases n with
  | zero => rfl
  | succ k => rfl

/-- What `padBase64` computes: the string itself when its length is a
multiple of four, and a panic otherwise. -/
theorem padBase64_eq (s : String) :
    padBase64 s = if s.utf8ByteSize % 4 = 0 then some s else none := by
  unfold padBase64
  simp only [tmod_neg_four]
  by_cases h : s.utf8ByteSize % 4 = 0
  · simp [h]
  · have hlt : -((s.utf8ByteSize % 4 : Nat) : Int) < 0 := by omega
    rw [if_pos hlt, if_neg h]

/-- One iteration of `processSnapshot` on a well-formed level: the `ZADD` and
the `HSET` it issues. -/
theorem snapshotEntry_wellFormed (uuid : Nat → String) (productID side : String) (w : World)
    (priceText quantityText : String) (p q t : BigFloat)
    (hp : BigFloat.SetString priceText = some p)
    (hq : BigFloat.SetString quantityText = some q)
    (ht : BigFloat.Mul 0 p q = some t) :
    ∃ pricePHP totalPricePHP f1 f2 f3 f4 f5,
      BigFloat.Mul 0 p PHPUSD_RATE = some pricePHP ∧
      BigFloat.Mul 0 t PHPUSD_RATE = some totalPricePHP ∧
      formatDecimal p 20 = some f1 ∧ formatDecimal q 20 = some f2 ∧
      formatDecimal t 20 = some f3 ∧ formatDecimal pricePHP 20 = some f4 ∧
      formatDecimal totalPricePHP 20 = some f5 ∧
      snapshotEntry uuid productID side w [JVal.str priceText, JVal.str quantityText] =
        Outcome.ok (HSet
          (ZAdd { w with drawn := w.drawn + 1 } (sortedSetKey productID (mapSide side))
            p.Float64 (generateOrderID (uuid w.drawn)))
          (generateOrderID (uuid w.drawn))
          [("pair", productID), ("side", mapSide side), ("smallest_unit", SMALLEST_UNIT),
            ("price_per_base_asset_USD", f1), ("quantity", f2), ("total_price_USD", f3),
            ("price_per_base_asset_PHP", f4), ("total_price_PHP", f5)]) := by
  obtain ⟨pp, tp, f1, f2, f3, f4, f5, hpp, htp, h1, h2, h3, h4, h5, hd⟩ :=
    snapshotOrderData_of_Mul productID side p q t ht
  refine ⟨pp, tp, f1, f2, f3, f4, f5, hpp, htp, h1, h2, h3, h4, h5, ?_⟩
  simp only [snapshotEntry, List.get?, hp, hq, hd]

/-- A recorded level stays recorded when more commands are issued. -/
theorem LevelRecorded_mono (uuid : Nat → String) (productID side : String)
    (issued issued1 : List StoreOp) (p q t : BigFloat)
    (hsub : ∀ op ∈ issued, op ∈ issued1)
    (h : LevelRecorded uuid productID side issued p q t) :
    LevelRecorded uuid productID side issued1 p q t := by
  obtain ⟨n, pp, tp, f1, f2, f3, f4, f5, hpp, htp, h1, h2, h3, h4, h5, hz, hh⟩ := h
  exact ⟨n, pp, tp, f1, f2, f3, f4, f5, hpp, htp, h1, h2, h3, h4, h5, hsub _ hz, hsub _ hh⟩

/-- The inner loop of `processSnapshot` over well-formed levels ends
normally, draws one UUID per level, keeps the commands issued before, and
records every level. -/
theorem forEach_snapshotEntry_wellFormed (uuid : Nat → String) (productID side : String)
    (entries : List (List JVal)) :
    ∀ w : World, (∀ e ∈ entries, WellFormedLevel e) →
    ∃ w1, forEach (snapshotEntry uuid productID side) entries w = Outcome.ok w1 ∧
      w1.drawn = w.drawn + entries.length ∧
      (∀ op ∈ w.issued, op ∈ w1.issued) ∧
      ∀ priceText quantityText p q t,
        [JVal.str priceText, JVal.str quantityText] ∈ entries →
        BigFloat.SetString priceText = some p → BigFloat.SetString quantityText = some q →
        BigFloat.Mul 0 p q = some t →
        LevelRecorded uuid productID side w1.issued p q t := by
  induction entries with
  | nil =>
    intro w _
    exact ⟨w, rfl, rfl, fun _ h => h, fun _ _ _ _ _ h => absurd h (List.not_mem_nil _)⟩
  | cons e es ih =>
    intro w hwf
    obtain ⟨pt0, qt0, p0, q0, t0, he, hp0, hq0, ht0⟩ := hwf e (List.mem_cons_self _ _)
    obtain ⟨pp, tp, f1, f2, f3, f4, f5, hpp, htp, h1, h2, h3, h4, h5, hstep⟩ :=
      snapshotEntry_wellFormed uuid productID side w pt0 qt0 p0 q0 t0 hp0 hq0 ht0
    obtain ⟨w1, hrun, hdrawn, hmono, hrec⟩ := ih _ (fun e' he' => hwf e' (List.mem_cons_of_mem _ he'))
    refine ⟨w1, ?_, ?_, ?_, ?_⟩
    · rw [he]
      simp only [forEach, hstep]
      exact hrun
    · rw [hdrawn]
      simp only [HSet, ZAdd, List.length_cons]
      omega
    · intro op hop
      apply hmono
      simp only [HSet, ZAdd, List.mem_append]
      exact Or.inl (Or.inl hop)
    · intro pt qt p q t hmem hp hq ht
      rcases List.mem_cons.mp hmem with heq | htl
      · have hlist : [JVal.str pt, JVal.str qt] = [JVal.str pt0, JVal.str qt0] := heq.trans he
        have hpt : pt = pt0 := by injection hlist with h _; injection h
        have hqt : qt = qt0 := by
          injection hlist with _ h
          injection h with h _
          injection h
        subst hpt hqt
        have hpe : p = p0 := Option.some.inj (hp.symm.trans hp0)
        have hqe : q = q0 := Option.some.inj (hq.symm.trans hq0)
        subst hpe hqe
        have hte : t = t0 := Option.some.inj (ht.symm.trans ht0)
        subst hte
        refine ⟨w.drawn, pp, tp, f1, f2, f3, f4, f5, hpp, htp, h1, h2, h3, h4, h5, ?_, ?_⟩
        · apply hmono
          simp [HSet, ZAdd]
        · apply hmono
          simp [HSet, ZAdd]
      · exact hrec pt qt p q t htl hp hq ht

/-- The ask of the scenario snapshot is well-formed. -/
theorem scenarioSnapshot_asks_wellFormed : ∀ e ∈ scenarioSnapshot.asks, WellFormedLevel e := by
  intro e he
  have heq : e = [JVal.str "101.00", JVal.str "1"] := by simpa [scenarioSnapshot] using he
  subst heq
  exact ⟨"101.00", "1", BigFloat.mkFinite 64 false 101 0, BigFloat.mkFinite 64 false 1 0,
    BigFloat.mkFinite 64 false 101 0, rfl, by decide, by decide, by decide⟩

/-- The bid of the scenario snapshot is well-formed. -/
theorem scenarioSnapshot_bids_wellFormed : ∀ e ∈ scenarioSnapshot.bids, WellFormedLevel e := by
  intro e he
  have heq : e = [JVal.str "100.50", JVal.str "2"] := by simpa [scenarioSnapshot] using he
  subst heq
  exact ⟨"100.50", "2", BigFloat.mkFinite 64 false 201 (-1), BigFloat.mkFinite 64 false 1 1,
    BigFloat.mkFinite 64 false 201 0, rfl, by decide, by decide, by decide⟩

/-! ## The claims -/

/-- C1, evaluated at the batch of two changes at price 100.50 (quantities 1
then 2) on the empty store: the handler ends normally, it issued two range
removals and two `HSET`s and no `ZADD`, the record of the second change is
stored under its order id with quantity 2, and the ordered index
`BTC-USD_buy` is empty, so no index entry points at that record. -/
theorem C1_l2update_writes_record_without_index_entry :
    (processL2Update sampleUUID replaceBatch World.empty).panicked = false ∧
    (processL2Update sampleUUID replaceBatch World.empty).world.zsets "BTC-USD_buy" = [] ∧
    (processL2Update sampleUUID replaceBatch World.empty).world.hashes "order:u1" =
      [("quantity", "2.0000000000000000000"), ("total_price_USD", "201.0000000000000000000"),
        ("total_price_PHP", "3364.1171875000000000000")] ∧
    (processL2Update sampleUUID replaceBatch World.empty).world.issued =
      [StoreOp.zremrangebyscore "BTC-USD_buy" (BigFloat.mkFinite 53 false 201 (-1))
          (BigFloat.mkFinite 53 false 201 (-1)),
        StoreOp.hset "order:u0"
          [("quantity", "1.0000000000000000000"), ("total_price_USD", "100.5000000000000000000"),
            ("total_price_PHP", "3364.1171875000000000000")],
        StoreOp.zremrangebyscore "BTC-USD_buy" (BigFloat.mkFinite 53 false 201 (-1))
          (BigFloat.mkFinite 53 false 201 (-1)),
        StoreOp.hset "order:u1"
          [("quantity", "2.0000000000000000000"), ("total_price_USD", "201.0000000000000000000"),
            ("total_price_PHP", "3364.1171875000000000000")]] := by
  refine ⟨?_, ?_, ?_, ?_⟩ <;> decide

/-- C2: for a change whose price and quantity parse and whose quantity
compares `<= 0`, one iteration of `processL2Update` (and so the handler on
the batch of that one change) ends normally; afterwards
the ordered index of the mapped side holds no entry whose score is in the
range `[price, price]`, in particular none whose score is the price; the
entries at other prices are the ones there before; no record is written and
no order id is drawn. -/
theorem C2_nonpositive_quantity_clears_price (uuid : Nat → String) (productID : String)
    (w : World) (side priceStr newQuantityStr : String) (p q : BigFloat)
    (hp : BigFloat.SetString priceStr = some p)
    (hq : BigFloat.SetString newQuantityStr = some q)
    (hle : BigFloat.Cmp q (BigFloat.NewFloat false 0 0) ≤ 0) :
    ∃ w1, l2Change uuid productID w
        [JVal.str side, JVal.str priceStr, JVal.str newQuantityStr] = Outcome.ok w1 ∧
      processL2Update uuid
        ⟨productID, [[JVal.str side, JVal.str priceStr, JVal.str newQuantityStr]]⟩ w =
          Outcome.ok w1 ∧
      (∀ e ∈ w1.zsets (sortedSetKey productID (mapSide side)),
        inRange p.Float64 p.Float64 e.score = false ∧ e.score ≠ p.Float64) ∧
      (∀ e, e ∈ w1.zsets (sortedSetKey productID (mapSide side)) ↔
        (e ∈ w.zsets (sortedSetKey productID (mapSide side)) ∧
          inRange p.Float64 p.Float64 e.score = false)) ∧
      w1.hashes = w.hashes ∧ w1.drawn = w.drawn := by
  refine ⟨ZRemRangeByScore w (sortedSetKey productID (mapSide side)) p.Float64 p.Float64,
    ?_, ?_, ?_, ?_, rfl, rfl⟩
  · simp [l2Change, hp, hq, hle]
  · simp [processL2Update, forEach, l2Change, hp, hq, hle]
  · intro e he
    have hr := not_inRange_of_mem_ZRemRangeByScore _ _ _ _ e he
    refine ⟨hr, ?_⟩
    intro heq
    rw [heq, inRange_self] at hr
    exact Bool.noConfusion hr
  · intro e
    simp [ZRemRangeByScore, List.mem_filter]

/-- C2 at the change `("BID", "100.50", "0")` on a store holding the price
100.50 in `BTC-USD_buy`. -/
theorem C2_nonpositive_quantity_clears_price_witness :
    BigFloat.SetString "100.50" = some (BigFloat.mkFinite 64 false 201 (-1)) ∧
    BigFloat.SetString "0" = some (BigFloat.mkZero 64 false) ∧
    ∃ w1, l2Change sampleUUID "BTC-USD" oneBidWorld
        [JVal.str "BID", JVal.str "100.50", JVal.str "0"] = Outcome.ok w1 ∧
      processL2Update sampleUUID
        ⟨"BTC-USD", [[JVal.str "BID", JVal.str "100.50", JVal.str "0"]]⟩ oneBidWorld =
          Outcome.ok w1 ∧
      (∀ e ∈ w1.zsets (sortedSetKey "BTC-USD" (mapSide "BID")),
        inRange (BigFloat.mkFinite 64 false 201 (-1)).Float64
            (BigFloat.mkFinite 64 false 201 (-1)).Float64 e.score = false ∧
          e.score ≠ (BigFloat.mkFinite 64 false 201 (-1)).Float64) ∧
      (∀ e, e ∈ w1.zsets (sortedSetKey "BTC-USD" (mapSide "BID")) ↔
        (e ∈ oneBidWorld.zsets (sortedSetKey "BTC-USD" (mapSide "BID")) ∧
          inRange (BigFloat.mkFinite 64 false 201 (-1)).Float64
            (BigFloat.mkFinite 64 false 201 (-1)).Float64 e.score = false)) ∧
      w1.hashes = oneBidWorld.hashes ∧ w1.drawn = oneBidWorld.drawn :=
  ⟨by decide, by decide,
    C2_nonpositive_quantity_clears_price sampleUUID "BTC-USD" oneBidWorld "BID" "100.50" "0"
      (BigFloat.mkFinite 64 false 201 (-1)) (BigFloat.mkZero 64 false)
      (by decide) (by decide) (by decide)⟩

/-- C3, evaluated: `mapSide` maps both snapshot tokens `bids` and `asks` to
the empty string (its table has only `BID` and `ASK`), so on the scenario
snapshot both levels are indexed under the one key `BTC-USD_` and nothing is
indexed under `BTC-USD_buy` or `BTC-USD_sell`. -/
theorem C3_snapshot_sides_share_one_key :
    mapSide "bids" = "" ∧ mapSide "asks" = "" ∧
    (processSnapshot sampleUUID scenarioSnapshot World.empty).panicked = false ∧
    (processSnapshot sampleUUID scenarioSnapshot World.empty).world.zsets "BTC-USD_" =
      [⟨BigFloat.mkFinite 53 false 101 0, "order:u0"⟩,
        ⟨BigFloat.mkFinite 53 false 201 (-1), "order:u1"⟩] ∧
    (processSnapshot sampleUUID scenarioSnapshot World.empty).world.zsets "BTC-USD_buy" = [] ∧
    (processSnapshot sampleUUID scenarioSnapshot World.empty).world.zsets "BTC-USD_sell" = [] := by
  refine ⟨?_, ?_, ?_, ?_, ?_, ?_⟩ <;> decide

/-- C4, refuted at the side token `foo`: `mapSide` returns the empty string
for it, and one iteration of `processL2Update` on the change
`("foo", "100.50", "2")` issues a range removal on the key `BTC-USD_` and
writes a record. -/
theorem C4_unknown_side_still_reaches_store :
    mapSide "foo" = "" ∧
    (l2Change sampleUUID "BTC-USD" World.empty
        [JVal.str "foo", JVal.str "100.50", JVal.str "2"]).world.issued =
      [StoreOp.zremrangebyscore "BTC-USD_" (BigFloat.mkFinite 53 false 201 (-1))
          (BigFloat.mkFinite 53 false 201 (-1)),
        StoreOp.hset "order:u0"
          [("quantity", "2.0000000000000000000"), ("total_price_USD", "201.0000000000000000000"),
            ("total_price_PHP", "3364.1171875000000000000")]] := by
  refine ⟨?_, ?_⟩ <;> decide

/-- C4 as amended: for a side token other than `BID` and `ASK`, `mapSide`
returns the empty string, and a change carrying it whose price parses is not
skipped: the first command its iteration issues is the range removal at the
price under the key `{instrument}_`; whenever the iteration ends normally
the remaining changes of the batch are processed from the world it reached;
and it does end normally, with the removal as its only command, when the
quantity parses and compares `<= 0`. -/
theorem C4_unknown_side_maps_to_empty_and_is_processed (uuid : Nat → String)
    (productID : String) (w : World) (side priceStr newQuantityStr : String)
    (p : BigFloat) (rest : List (List JVal))
    (hbid : side ≠ "BID") (hask : side ≠ "ASK")
    (hp : BigFloat.SetString priceStr = some p) :
    mapSide side = "" ∧
    (∃ tail, (l2Change uuid productID w
        [JVal.str side, JVal.str priceStr, JVal.str newQuantityStr]).world.issued =
      w.issued ++
        StoreOp.zremrangebyscore (sortedSetKey productID "") p.Float64 p.Float64 :: tail) ∧
    (∀ w1, l2Change uuid productID w
        [JVal.str side, JVal.str priceStr, JVal.str newQuantityStr] = Outcome.ok w1 →
      processL2Update uuid
          ⟨productID, [JVal.str side, JVal.str priceStr, JVal.str newQuantityStr] :: rest⟩ w =
        processL2Update uuid ⟨productID, rest⟩ w1) ∧
    (∀ q, BigFloat.SetString newQuantityStr = some q →
      BigFloat.Cmp q (BigFloat.NewFloat false 0 0) ≤ 0 →
      l2Change uuid productID w
          [JVal.str side, JVal.str priceStr, JVal.str newQuantityStr] =
        Outcome.ok (ZRemRangeByScore w (sortedSetKey productID "") p.Float64 p.Float64)) := by
  have hm : mapSide side = "" := by simp [mapSide, hbid, hask]
  refine ⟨hm, ?_, ?_, ?_⟩
  · cases hq : BigFloat.SetString newQuantityStr with
    | none =>
      refine ⟨[], ?_⟩
      simp [l2Change, hp, hq, hm, Outcome.world, ZRemRangeByScore]
    | some q =>
      by_cases hle : BigFloat.Cmp q (BigFloat.NewFloat false 0 0) ≤ 0
      · refine ⟨[], ?_⟩
        simp [l2Change, hp, hq, hm, hle, Outcome.world, ZRemRangeByScore]
      · cases hd : l2OrderData p q with
        | none =>
          refine ⟨[], ?_⟩
          simp [l2Change, hp, hq, hm, hle, hd, Outcome.world, ZRemRangeByScore]
        | some data =>
          refine ⟨[StoreOp.hset (generateOrderID (uuid w.drawn)) data], ?_⟩
          simp [l2Change, hp, hq, hm, hle, hd, Outcome.world, ZRemRangeByScore, HSet]
  · intro w1 h1
    simp only [processL2Update, forEach, h1]
  · intro q hq hle
    simp [l2Change, hp, hq, hm, hle]

/-- C4 as amended, at the token `foo` with the change `("foo", "100.50", "0")`
followed by one more change, on the store holding the price 100.50 in
`BTC-USD_buy`; the quantity `0` parses and compares `<= 0`. -/
theorem C4_unknown_side_maps_to_empty_and_is_processed_witness :
    "foo" ≠ "BID" ∧ "foo" ≠ "ASK" ∧
    BigFloat.SetString "100.50" = some (BigFloat.mkFinite 64 false 201 (-1)) ∧
    (mapSide "foo" = "" ∧
    (∃ tail, (l2Change sampleUUID "BTC-USD" oneBidWorld
        [JVal.str "foo", JVal.str "100.50", JVal.str "0"]).world.issued =
      oneBidWorld.issued ++
        StoreOp.zremrangebyscore (sortedSetKey "BTC-USD" "")
          (BigFloat.mkFinite 64 false 201 (-1)).Float64
          (BigFloat.mkFinite 64 false 201 (-1)).Float64 :: tail) ∧
    (∀ w1, l2Change sampleUUID "BTC-USD" oneBidWorld
        [JVal.str "foo", JVal.str "100.50", JVal.str "0"] = Outcome.ok w1 →
      processL2Update sampleUUID
          ⟨"BTC-USD", [JVal.str "foo", JVal.str "100.50", JVal.str "0"] ::
            [[JVal.str "BID", JVal.str "101.00", JVal.str "1"]]⟩ oneBidWorld =
        processL2Update sampleUUID
          ⟨"BTC-USD", [[JVal.str "BID", JVal.str "101.00", JVal.str "1"]]⟩ w1) ∧
    (∀ q, BigFloat.SetString "0" = some q →
      BigFloat.Cmp q (BigFloat.NewFloat false 0 0) ≤ 0 →
      l2Change sampleUUID "BTC-USD" oneBidWorld
          [JVal.str "foo", JVal.str "100.50", JVal.str "0"] =
        Outcome.ok (ZRemRangeByScore oneBidWorld (sortedSetKey "BTC-USD" "")
          (BigFloat.mkFinite 64 false 201 (-1)).Float64
          (BigFloat.mkFinite 64 false 201 (-1)).Float64))) ∧
    BigFloat.SetString "0" = some (BigFloat.mkZero 64 false) ∧
    BigFloat.Cmp (BigFloat.mkZero 64 false) (BigFloat.NewFloat false 0 0) ≤ 0 :=
  ⟨by decide, by decide, by decide,
    C4_unknown_side_maps_to_empty_and_is_processed sampleUUID "BTC-USD" oneBidWorld
      "foo" "100.50" "0" (BigFloat.mkFinite 64 false 201 (-1))
      [[JVal.str "BID", JVal.str "101.00", JVal.str "1"]]
      (by decide) (by decide) (by decide),
    by decide, by decide⟩

/-- C5, evaluated: in the record `processL2Update` writes, `total_price_PHP`
is the formatted square of the rate, whatever the change: for price 100.50
and quantity 2 it is `3364.1171875...`, the same as for price 1 and quantity
1, while price times quantity times rate formats as `11658.203125...`. -/
theorem C5_l2update_notional_secondary_ignores_the_change :
    BigFloat.SetString "100.50" = some (BigFloat.mkFinite 64 false 201 (-1)) ∧
    BigFloat.SetString "2" = some (BigFloat.mkFinite 64 false 1 1) ∧
    BigFloat.SetString "1" = some (BigFloat.mkFinite 64 false 1 0) ∧
    l2OrderData (BigFloat.mkFinite 64 false 201 (-1)) (BigFloat.mkFinite 64 false 1 1) =
      some [("quantity", "2.0000000000000000000"), ("total_price_USD", "201.0000000000000000000"),
        ("total_price_PHP", "3364.1171875000000000000")] ∧
    l2OrderData (BigFloat.mkFinite 64 false 1 0) (BigFloat.mkFinite 64 false 1 0) =
      some [("quantity", "1.0000000000000000000"), ("total_price_USD", "1.0000000000000000000"),
        ("total_price_PHP", "3364.1171875000000000000")] ∧
    ((BigFloat.Mul 0 (BigFloat.mkFinite 64 false 201 (-1)) (BigFloat.mkFinite 64 false 1 1)).bind
      fun t => (BigFloat.Mul 0 t PHPUSD_RATE).bind fun v => formatDecimal v 20) =
      some "11658.2031250000000000000" := by
  refine ⟨?_, ?_, ?_, ?_, ?_, ?_⟩ <;> decide

/-- C6: on a snapshot all of whose levels are well-formed, `processSnapshot`
ends normally, having drawn one order id per level, and for every level
`(priceText, quantityText)` under `asks` or `bids`, with parsed price `p`,
quantity `q` and product `t`, it has issued the `HSET` of a record whose
price-primary is `formatDecimal(p, 20)`, quantity `formatDecimal(q, 20)`,
notional-primary `formatDecimal(p * q, 20)`, price-secondary
`formatDecimal(p * rate, 20)` and notional-secondary
`formatDecimal((p * q) * rate, 20)`, and the `ZADD` of its order id. -/
theorem C6_snapshot_record_fields (uuid : Nat → String) (message : SnapshotMsg) (w : World)
    (hasks : ∀ e ∈ message.asks, WellFormedLevel e)
    (hbids : ∀ e ∈ message.bids, WellFormedLevel e) :
    ∃ w1, processSnapshot uuid message w = Outcome.ok w1 ∧
      w1.drawn = w.drawn + message.asks.length + message.bids.length ∧
      (∀ priceText quantityText p q t,
        [JVal.str priceText, JVal.str quantityText] ∈ message.asks →
        BigFloat.SetString priceText = some p → BigFloat.SetString quantityText = some q →
        BigFloat.Mul 0 p q = some t →
        LevelRecorded uuid message.product_id "asks" w1.issued p q t) ∧
      (∀ priceText quantityText p q t,
        [JVal.str priceText, JVal.str quantityText] ∈ message.bids →
        BigFloat.SetString priceText = some p → BigFloat.SetString quantityText = some q →
        BigFloat.Mul 0 p q = some t →
        LevelRecorded uuid message.product_id "bids" w1.issued p q t) := by
  obtain ⟨wa, hra, hda, _, hreca⟩ :=
    forEach_snapshotEntry_wellFormed uuid message.product_id "asks" message.asks w hasks
  obtain ⟨wb, hrb, hdb, hmb, hrecb⟩ :=
    forEach_snapshotEntry_wellFormed uuid message.product_id "bids" message.bids wa hbids
  refine ⟨wb, ?_, ?_, ?_, hrecb⟩
  · simp only [processSnapshot, hra]
    exact hrb
  · rw [hdb, hda]
  · intro pt qt p q t hmem hp hq ht
    exact LevelRecorded_mono uuid message.product_id "asks" wa.issued wb.issued p q t hmb
      (hreca pt qt p q t hmem hp hq ht)

/-- C6 at the scenario snapshot on the empty store: its two levels are
well-formed, the conclusion follows, and the record `processSnapshot` stores
for the bid `("100.50", "2")` reads quantity `2.0000000000000000000` and
notional-primary `201.0000000000000000000`, texts that denote 2 and 201.00. -/
theorem C6_snapshot_record_fields_witness :
    (∀ e ∈ scenarioSnapshot.asks, WellFormedLevel e) ∧
    (∀ e ∈ scenarioSnapshot.bids, WellFormedLevel e) ∧
    (∃ w1, processSnapshot sampleUUID scenarioSnapshot World.empty = Outcome.ok w1 ∧
      w1.drawn = World.empty.drawn + scenarioSnapshot.asks.length +
        scenarioSnapshot.bids.length ∧
      (∀ priceText quantityText p q t,
        [JVal.str priceText, JVal.str quantityText] ∈ scenarioSnapshot.asks →
        BigFloat.SetString priceText = some p → BigFloat.SetString quantityText = some q →
        BigFloat.Mul 0 p q = some t →
        LevelRecorded sampleUUID scenarioSnapshot.product_id "asks" w1.issued p q t) ∧
      (∀ priceText quantityText p q t,
        [JVal.str priceText, JVal.str quantityText] ∈ scenarioSnapshot.bids →
        BigFloat.SetString priceText = some p → BigFloat.SetString quantityText = some q →
        BigFloat.Mul 0 p q = some t →
        LevelRecorded sampleUUID scenarioSnapshot.product_id "bids" w1.issued p q t)) ∧
    (processSnapshot sampleUUID scenarioSnapshot World.empty).world.hashes "order:u1" =
      [("pair", "BTC-USD"), ("side", ""), ("smallest_unit", "0.0000001"),
        ("price_per_base_asset_USD", "100.5000000000000000000"),
        ("quantity", "2.0000000000000000000"),
        ("total_price_USD", "201.0000000000000000000"),
        ("price_per_base_asset_PHP", "5829.1015625000000000000"),
        ("total_price_PHP", "11658.2031250000000000000")] ∧
    decimalValue "2.0000000000000000000" = some (20000000000000000000, 19) ∧
    sameNumber (20000000000000000000, 19) (2, 0) ∧
    decimalValue "201.0000000000000000000" = some (2010000000000000000000, 19) ∧
    sameNumber (2010000000000000000000, 19) (20100, 2) :=
  ⟨scenarioSnapshot_asks_wellFormed, scenarioSnapshot_bids_wellFormed,
    C6_snapshot_record_fields sampleUUID scenarioSnapshot World.empty
      scenarioSnapshot_asks_wellFormed scenarioSnapshot_bids_wellFormed,
    by decide, by decide, by decide, by decide, by decide⟩

/-- C7, evaluated: `formatDecimal` drops one trailing zero, not all of them:
the value 2 with 20 digits formats as `2.0000000000000000000` and 100.50 as
`100.5000000000000000000`, texts with a decimal point that end in `0`. -/
theorem C7_formatDecimal_strips_one_zero_only :
    BigFloat.SetString "2" = some (BigFloat.mkFinite 64 false 1 1) ∧
    formatDecimal (BigFloat.mkFinite 64 false 1 1) 20 = some "2.0000000000000000000" ∧
    BigFloat.SetString "100.50" = some (BigFloat.mkFinite 64 false 201 (-1)) ∧
    formatDecimal (BigFloat.mkFinite 64 false 201 (-1)) 20 = some "100.5000000000000000000" := by
  refine ⟨?_, ?_, ?_, ?_⟩ <;> decide

/-- C8, evaluated: with 0 fraction digits `formatDecimal` turns 100 into
`10` and panics on 0 (the text `0` becomes empty and is then indexed); with
20 digits 100 formats as `100.0000000000000000000`. -/
theorem C8_formatDecimal_integers :
    BigFloat.SetString "100" = some (BigFloat.mkFinite 64 false 25 2) ∧
    formatDecimal (BigFloat.mkFinite 64 false 25 2) 0 = some "10" ∧
    BigFloat.SetString "0" = some (BigFloat.mkZero 64 false) ∧
    formatDecimal (BigFloat.mkZero 64 false) 0 = none ∧
    formatDecimal (BigFloat.mkFinite 64 false 25 2) 20 = some "100.0000000000000000000" := by
  refine ⟨?_, ?_, ?_, ?_, ?_⟩ <;> decide

/-- C9, evaluated: the text `2097153` parses exactly, and `formatDecimal`
with 20 digits returns `2097152.0000000000000000000`, a different number
(the value is first rounded to 20 bits); likewise `0.1` comes back as
`0.10000002384185791016`. -/
theorem C9_format_of_parse_changes_the_number :
    BigFloat.SetString "2097153" = some (BigFloat.mkFinite 64 false 2097153 0) ∧
    formatDecimal (BigFloat.mkFinite 64 false 2097153 0) 20 =
      some "2097152.0000000000000000000" ∧
    decimalValue "2097153" = some (2097153, 0) ∧
    decimalValue "2097152.0000000000000000000" = some (20971520000000000000000000, 19) ∧
    ¬ sameNumber (2097153, 0) (20971520000000000000000000, 19) ∧
    (BigFloat.SetString "0.1").bind (fun v => formatDecimal v 20) =
      some "0.10000002384185791016" ∧
    decimalValue "0.1" = some (1, 1) ∧
    decimalValue "0.10000002384185791016" = some (10000002384185791016, 20) ∧
    ¬ sameNumber (1, 1) (10000002384185791016, 20) := by
  refine ⟨?_, ?_, ?_, ?_, ?_, ?_, ?_, ?_, ?_⟩ <;> decide

/-- C10, evaluated: `abc` and `x` do not parse; on the snapshot whose first
ask has price `abc` the handler panics having issued nothing, although
without that entry it ends normally with four commands; on the batch whose
first change has quantity `x` the handler panics after the range removal of
that very change, and the second change is never processed. -/
theorem C10_malformed_number_panics :
    BigFloat.SetString "abc" = none ∧ BigFloat.SetString "x" = none ∧
    (processSnapshot sampleUUID malformedSnapshot World.empty).panicked = true ∧
    (processSnapshot sampleUUID malformedSnapshot World.empty).world.issued = [] ∧
    (processSnapshot sampleUUID scenarioSnapshot World.empty).panicked = false ∧
    (processSnapshot sampleUUID scenarioSnapshot World.empty).world.issued.length = 4 ∧
    (processL2Update sampleUUID malformedBatch World.empty).panicked = true ∧
    (processL2Update sampleUUID malformedBatch World.empty).world.issued =
      [StoreOp.zremrangebyscore "BTC-USD_buy" (BigFloat.mkFinite 53 false 201 (-1))
        (BigFloat.mkFinite 53 false 201 (-1))] := by
  refine ⟨?_, ?_, ?_, ?_, ?_, ?_, ?_, ?_⟩ <;> decide

/-- C11, evaluated: the scenario snapshot applied twice to the empty store
ends normally both times and leaves four entries in the one index
`BTC-USD_`, two order ids at the score 101 and two at the score 100.5, where
one application leaves two entries: `processSnapshot` adds an entry under a
fresh order id without removing the entry already at that price. -/
theorem C11_snapshot_twice_duplicates_each_price :
    (processSnapshot sampleUUID scenarioSnapshot World.empty).panicked = false ∧
    (processSnapshot sampleUUID scenarioSnapshot World.empty).world.zsets "BTC-USD_" =
      [⟨BigFloat.mkFinite 53 false 101 0, "order:u0"⟩,
        ⟨BigFloat.mkFinite 53 false 201 (-1), "order:u1"⟩] ∧
    (processSnapshot sampleUUID scenarioSnapshot
      (processSnapshot sampleUUID scenarioSnapshot World.empty).world).panicked = false ∧
    (processSnapshot sampleUUID scenarioSnapshot
      (processSnapshot sampleUUID scenarioSnapshot World.empty).world).world.zsets "BTC-USD_" =
      [⟨BigFloat.mkFinite 53 false 101 0, "order:u0"⟩,
        ⟨BigFloat.mkFinite 53 false 201 (-1), "order:u1"⟩,
        ⟨BigFloat.mkFinite 53 false 101 0, "order:u2"⟩,
        ⟨BigFloat.mkFinite 53 false 201 (-1), "order:u3"⟩] ∧
    (((processSnapshot sampleUUID scenarioSnapshot
      (processSnapshot sampleUUID scenarioSnapshot World.empty).world).world.zsets
        "BTC-USD_").filter fun e =>
          inRange (BigFloat.mkFinite 53 false 201 (-1)) (BigFloat.mkFinite 53 false 201 (-1))
            e.score).length = 2 := by
  refine ⟨?_, ?_, ?_, ?_, ?_⟩ <;> decide

/-- C12, evaluated: the record `processSnapshot` stores for the scenario's
ask has the eight fields, while the record `processL2Update` stores for the
change `("BID", "100.50", "1")` has three: `quantity`, `total_price_USD` and
`total_price_PHP`, without instrument, side, smallest unit or either price. -/
theorem C12_l2update_record_has_three_fields :
    ((processSnapshot sampleUUID scenarioSnapshot World.empty).world.hashes "order:u0").map
        Prod.fst =
      ["pair", "side", "smallest_unit", "price_per_base_asset_USD", "quantity",
        "total_price_USD", "price_per_base_asset_PHP", "total_price_PHP"] ∧
    (processL2Update sampleUUID replaceBatch World.empty).panicked = false ∧
    (processL2Update sampleUUID replaceBatch World.empty).world.hashes "order:u0" =
      [("quantity", "1.0000000000000000000"), ("total_price_USD", "100.5000000000000000000"),
        ("total_price_PHP", "3364.1171875000000000000")] := by
  refine ⟨?_, ?_, ?_⟩ <;> decide

/-- C13: for a secret whose length is a multiple of four and that decodes
to `key`, `sign` returns the specification's primitive applied to the secret
and the six arguments joined by SOH, and `generateSignature` at the time
`now` returns the primitive applied to the secret and the timestamp followed
by `GET` and `/users/self/verify`, together with the timestamp. -/
theorem C13_sign_and_generateSignature_are_the_primitive (c : Primitives) (secret : String)
    (key : Bytes) (now : Int)
    (sendingTime msgType seqNum senderComp targetComp password : String)
    (hlen : secret.utf8ByteSize % 4 = 0) (hdec : c.DecodeString secret = some key) :
    specPrimitive c secret
        (specLogonMessage sendingTime msgType seqNum senderComp targetComp password) =
      some (sign c secret sendingTime msgType seqNum senderComp targetComp password) ∧
    ∃ signature,
      specPrimitive c secret (specSubscribeMessage (unixText now) "/users/self/verify") =
        some signature ∧
      generateSignature c now secret = SigOutcome.ok signature (unixText now) := by
  constructor
  · simp only [specPrimitive, sign, hdec, Option.map_some']
    rfl
  · refine ⟨c.EncodeToString (c.hmacSha256 key
      (specSubscribeMessage (unixText now) "/users/self/verify")), ?_, ?_⟩
    · simp only [specPrimitive, hdec, Option.map_some']
    · simp only [generateSignature, padBase64_eq, hlen, if_true, hdec]
      rfl

/-- C13 at the secret `c2VjcmV0` (the bytes of `secret`), the time
1700000000 and a logon message of six sample fields, with the sample
library functions. -/
theorem C13_sign_and_generateSignature_are_the_primitive_witness :
    "c2VjcmV0".utf8ByteSize % 4 = 0 ∧
    samplePrimitives.DecodeString "c2VjcmV0" = some [115, 101, 99, 114, 101, 116] ∧
    (specPrimitive samplePrimitives "c2VjcmV0"
        (specLogonMessage "20240101-00:00:00.000" "A" "1" "sender" "Coinbase" "pass") =
      some (sign samplePrimitives "c2VjcmV0" "20240101-00:00:00.000" "A" "1" "sender"
        "Coinbase" "pass") ∧
    ∃ signature,
      specPrimitive samplePrimitives "c2VjcmV0"
          (specSubscribeMessage (unixText 1700000000) "/users/self/verify") =
        some signature ∧
      generateSignature samplePrimitives 1700000000 "c2VjcmV0" =
        SigOutcome.ok signature (unixText 1700000000)) ∧
    unixText 1700000000 = "1700000000" :=
  ⟨by decide, by decide,
    C13_sign_and_generateSignature_are_the_primitive samplePrimitives "c2VjcmV0"
      [115, 101, 99, 114, 101, 116] 1700000000 "20240101-00:00:00.000" "A" "1" "sender"
      "Coinbase" "pass" (by decide) (by decide),
    by decide⟩

/-- C14, evaluated: `padBase64` panics on the 15-byte secret
`your_secret_key` (the repeat count is `-15 % 4 = -3`), so
`generateSignature` panics on it whatever the library functions and the
time; in general `padBase64` returns its argument unchanged when the length
is a multiple of four and panics otherwise, so it never appends a `=`. -/
theorem C14_padBase64_panics_on_unaligned_length :
    "your_secret_key".utf8ByteSize = 15 ∧
    Int.tmod (-(15 : Int)) 4 = -3 ∧
    padBase64 "your_secret_key" = none ∧
    (∀ (c : Primitives) (now : Int),
      generateSignature c now "your_secret_key" = SigOutcome.panic) ∧
    (∀ s : String, padBase64 s = if s.utf8ByteSize % 4 = 0 then some s else none) := by
  refine ⟨by decide, by decide, by decide, ?_, padBase64_eq⟩
  intro c now
  have h : padBase64 "your_secret_key" = none := by decide
  simp only [generateSignature, h]

end OrderBook
